import Mathlib

set_option maxRecDepth 4000

/-!
Verification development for the skill progression and action-resolution
engine of the kelvor repository.  The definitions below are a shallow
embedding of `src/systems/skills/BaseSkillSystem.ts` and
`src/systems/skills/SkillRegistry.ts`.  JavaScript numbers are modelled as
exact rationals, JavaScript integers used as levels and counters as natural
numbers, `undefined`-able fields as `Option`, and the global event bus as an
explicit list of emitted events returned next to the new state.  The
abstract protected hooks of the base class (duration / success / critical
modifiers, reward modification, the economy - inventory - quest
collaborators and the custom experience curve) are collected in a
`SkillHooks` record over an opaque context type, so every theorem
quantifies over all concrete subclasses.
-/

namespace Kelvor

/-- Requirement kinds of `ActionRequirement.type` in `src/types/index.ts`. -/
inductive RequirementType where
  | skill
  | level
  | item
  | gold
  | quest
deriving DecidableEq, Repr

/-- `ActionRequirement` from `src/types/index.ts` (the `value` union is used
as a string identifier by every consumer in the engine). -/
structure ActionRequirement where
  type : RequirementType
  value : String
  amount : Option ℚ
deriving DecidableEq, Repr

/-- Reward kinds of `ActionReward.type` in `src/types/index.ts`. -/
inductive RewardType where
  | experience
  | item
  | gold
  | skill
deriving DecidableEq, Repr

/-- `ActionReward` from `src/types/index.ts`. -/
structure ActionReward where
  type : RewardType
  value : String
  amount : ℚ
  chance : Option ℚ
deriving DecidableEq, Repr

/-- `SkillAction` from `src/types/index.ts` (display-only fields omitted). -/
structure SkillAction where
  id : String
  name : String
  requirements : List ActionRequirement
  rewards : List ActionReward
  baseTime : ℚ
  levelScaling : ℚ
deriving DecidableEq, Repr

/-- The experience-curve selector of `SkillConfig.experienceCurve`. -/
inductive ExperienceCurve where
  | linear
  | exponential
  | custom
deriving DecidableEq, Repr

/-- `SkillConfig` from `BaseSkillSystem.ts` (display-only fields omitted). -/
structure SkillConfig where
  id : String
  name : String
  maxLevel : ℕ
  experienceCurve : ExperienceCurve
  baseExperience : ℚ
  experienceMultiplier : ℚ
  actions : List SkillAction
deriving DecidableEq, Repr

/-- `ActiveAction` from `src/types/index.ts`. -/
structure ActiveAction where
  actionId : String
  startTime : ℚ
  endTime : ℚ
  repeats : ℕ
  currentRepeat : ℕ
deriving DecidableEq, Repr

/-- `SkillProgress` from `BaseSkillSystem.ts`. -/
structure SkillProgress where
  level : ℕ
  experience : ℚ
  experienceToNext : ℚ
  totalExperienceGained : ℚ
  actionsCompleted : ℕ
  timeSpent : ℚ
deriving DecidableEq, Repr

/-- `SkillState` from `BaseSkillSystem.ts`: the top-level `Skill` fields
(`level`, `experience`, `experienceToNext`) coexist with the nested
`progress` record, exactly as in the source. -/
structure SkillState where
  id : String
  name : String
  level : ℕ
  experience : ℚ
  experienceToNext : ℚ
  progress : SkillProgress
  unlockedActions : List String
  activeAction : Option ActiveAction
deriving DecidableEq, Repr

/-- `ActionResult` from `src/types/index.ts`.  The `experience` record holds
at most the one key the engine ever writes, modelled as an association
list. -/
structure ActionResult where
  success : Bool
  rewards : List ActionReward
  experience : List (String × ℚ)
  failureReason : Option String
  critBonus : Option ℚ
deriving DecidableEq, Repr

/-- Events emitted on the global `eventSystem` bus, restricted to the
payload shapes of `GameEventMap` that the skill engine emits. -/
inductive GameEvent where
  | actionStarted (actionId : String) (duration : ℚ)
  | actionCompleted (actionId : String) (rewards : List ActionReward)
  | actionFailed (actionId : String) (reason : String)
  | levelUp (skillId : String) (newLevel : ℕ)
  | actionUnlocked (skillId : String) (actionId : String)
  | skillUnlocked (skillId : String)
deriving DecidableEq, Repr

/-- The abstract protected hooks of `BaseSkillSystem` together with the
abstract collaborator queries, over an opaque context type `Ctx` (the
`context?: any` argument).  A concrete subclass such as
`WoodcuttingSkillSystem` is one inhabitant of this record. -/
structure SkillHooks (Ctx : Type) where
  getActionDurationModifier : SkillState → SkillAction → Option Ctx → ℚ
  getSuccessChanceModifier : SkillState → SkillAction → Option Ctx → ℚ
  getCriticalChanceModifier : SkillState → SkillAction → Option Ctx → ℚ
  modifyRewardAmount : SkillState → ActionReward → ℚ → Option Ctx → Bool → ℚ
  hasItem : String → ℚ → Bool
  hasGold : ℚ → Bool
  hasCompletedQuest : String → Bool
  calculateCustomExperience : ℕ → ℚ

/-- JavaScript `x || 1` on an optional numeric field: `undefined` and `0`
are falsy and fall back to the default. -/
def orOne (x : Option ℚ) : ℚ :=
  match x with
  | none => 1
  | some a => if a = 0 then 1 else a

/-- JavaScript `x || 0` on an optional numeric field. -/
def orZero (x : Option ℚ) : ℚ :=
  match x with
  | none => 0
  | some a => if a = 0 then 0 else a

/-- `Math.floor` on the rational model of a JavaScript number. -/
def jsFloor (q : ℚ) : ℚ := ((⌊q⌋ : ℤ) : ℚ)

/-- `meetsRequirements` (`BaseSkillSystem.ts` lines 173-199).  The `state`
argument is `none` when `this.state` is still `undefined` (which happens
during the constructor, where `createInitialState` runs before the field is
assigned): the guard at the top of the source method then returns `false`. -/
def meetsRequirements {Ctx : Type} (hooks : SkillHooks Ctx) (cfg : SkillConfig)
    (state : Option SkillState) (requirements : List ActionRequirement) : Bool :=
  match state with
  | none => false
  | some s =>
    requirements.all fun req =>
      match req.type with
      | .skill => decide (req.value = cfg.id) && decide (orOne req.amount ≤ (s.level : ℚ))
      | .level => decide (orOne req.amount ≤ (s.level : ℚ))
      | .item => hooks.hasItem req.value (orOne req.amount)
      | .gold => hooks.hasGold (orZero req.amount)
      | .quest => hooks.hasCompletedQuest req.value

/-- `getAction` (`BaseSkillSystem.ts` lines 166-168). -/
def getAction (cfg : SkillConfig) (actionId : String) : Option SkillAction :=
  cfg.actions.find? fun action => action.id == actionId

/-- `getRequiredLevelForAction` (`BaseSkillSystem.ts` lines 368-371):
`skillReq?.amount || 1` over the first skill-typed requirement naming this
skill. -/
def getRequiredLevelForAction (cfg : SkillConfig) (action : SkillAction) : ℚ :=
  match action.requirements.find? (fun req =>
      decide (req.type = RequirementType.skill) && decide (req.value = cfg.id)) with
  | none => 1
  | some req => orOne req.amount

/-- `calculateExperienceForLevel` (`BaseSkillSystem.ts` lines 542-561); the
`custom` branch delegates to the subclass hook. -/
def calculateExperienceForLevel {Ctx : Type} (hooks : SkillHooks Ctx)
    (cfg : SkillConfig) (level : ℕ) : ℚ :=
  if level ≤ 1 then cfg.baseExperience
  else
    match cfg.experienceCurve with
    | .linear => cfg.baseExperience * (level : ℚ)
    | .exponential => jsFloor (cfg.baseExperience * cfg.experienceMultiplier ^ (level - 1))
    | .custom => hooks.calculateCustomExperience level

/-- `getInitialUnlockedActions` (`BaseSkillSystem.ts` lines 83-87).  It is
invoked from `createInitialState`, which the constructor calls before
`this.state` has been assigned, so each `meetsRequirements` call runs with
`this.state === undefined` (modelled by passing `none`). -/
def getInitialUnlockedActions {Ctx : Type} (hooks : SkillHooks Ctx)
    (cfg : SkillConfig) : List String :=
  (cfg.actions.filter fun action =>
    meetsRequirements hooks cfg none action.requirements).map fun action => action.id

/-- `createInitialState` (`BaseSkillSystem.ts` lines 61-78). -/
def createInitialState {Ctx : Type} (hooks : SkillHooks Ctx) (cfg : SkillConfig) :
    SkillState :=
  { id := cfg.id
    name := cfg.name
    level := 1
    experience := 0
    experienceToNext := calculateExperienceForLevel hooks cfg 2
    progress :=
      { level := 1
        experience := 0
        experienceToNext := calculateExperienceForLevel hooks cfg 2
        totalExperienceGained := 0
        actionsCompleted := 0
        timeSpent := 0 }
    unlockedActions := getInitialUnlockedActions hooks cfg
    activeAction := none }

/-- `calculateSuccessChance` (`BaseSkillSystem.ts` lines 350-363).  Note the
source multiplies the skill-specific modifier in before the final
`Math.min(0.95, Math.max(0.05, successChance))`. -/
def calculateSuccessChance {Ctx : Type} (hooks : SkillHooks Ctx) (cfg : SkillConfig)
    (st : SkillState) (action : SkillAction) (context : Option Ctx) : ℚ :=
  let requiredLevel := getRequiredLevelForAction cfg action
  let levelBonus := min (0.4 : ℚ) (((st.level : ℚ) - requiredLevel) * 0.01)
  let successChance := (0.5 : ℚ) + levelBonus
  let successChance := successChance * hooks.getSuccessChanceModifier st action context
  min (0.95 : ℚ) (max (0.05 : ℚ) successChance)

/-- `calculateCriticalChance` (`BaseSkillSystem.ts` lines 381-392). -/
def calculateCriticalChance {Ctx : Type} (hooks : SkillHooks Ctx)
    (st : SkillState) (action : SkillAction) (context : Option Ctx) : ℚ :=
  let criticalChance := (0.05 : ℚ) + (st.level : ℚ) * 0.001
  let criticalChance := criticalChance * hooks.getCriticalChanceModifier st action context
  min (0.25 : ℚ) criticalChance

/-- `getCriticalMultiplier` (`BaseSkillSystem.ts` lines 472-474). -/
def getCriticalMultiplier : ℚ := 2

/-- `calculateActionDuration` (`BaseSkillSystem.ts` lines 292-304). -/
def calculateActionDuration {Ctx : Type} (hooks : SkillHooks Ctx)
    (st : SkillState) (action : SkillAction) (context : Option Ctx) : ℚ :=
  let levelBonus := 1 - ((st.level : ℚ) - 1) * action.levelScaling
  let duration := action.baseTime * max (0.1 : ℚ) levelBonus
  let duration := duration * hooks.getActionDurationModifier st action context
  jsFloor duration

/-- One step of the `forEach` body of `calculateRewards`
(`BaseSkillSystem.ts` lines 402-430).  `rolls` is the injected random
source (the stream of `Math.random()` draws) and `k` the index of the next
draw; a draw is consumed only when `reward.chance` is truthy, mirroring the
short-circuit in `if (reward.chance && Math.random() > reward.chance)`. -/
def calculateRewardsStep {Ctx : Type} (hooks : SkillHooks Ctx) (st : SkillState)
    (context : Option Ctx) (isCriticalHit : Bool) (rolls : ℕ → ℚ)
    (acc : List ActionReward × ℕ) (reward : ActionReward) : List ActionReward × ℕ :=
  let amount := if reward.amount = 0 then 1 else reward.amount
  let chanceTruthy := match reward.chance with
    | none => false
    | some c => decide (c ≠ 0)
  let k := acc.2
  let k1 := if chanceTruthy then k + 1 else k
  let skipped := chanceTruthy && decide ((orZero reward.chance) < rolls k)
  if skipped then (acc.1, k1)
  else
    let amount := if isCriticalHit then jsFloor (amount * getCriticalMultiplier) else amount
    let amount := hooks.modifyRewardAmount st reward amount context isCriticalHit
    if 0 < amount then (acc.1 ++ [{ reward with amount := amount }], k1)
    else (acc.1, k1)

/-- `calculateRewards` (`BaseSkillSystem.ts` lines 402-430). -/
def calculateRewards {Ctx : Type} (hooks : SkillHooks Ctx) (st : SkillState)
    (action : SkillAction) (context : Option Ctx) (isCriticalHit : Bool)
    (rolls : ℕ → ℚ) (k : ℕ) : List ActionReward × ℕ :=
  action.rewards.foldl (calculateRewardsStep hooks st context isCriticalHit rolls) ([], k)

/-- Overwriting assignment `record[key] = value` on the association-list
model of a `Record<string, number>`. -/
def recordSet (l : List (String × ℚ)) (key : String) (value : ℚ) :
    List (String × ℚ) :=
  if l.any (fun p => p.1 == key) then
    l.map fun p => if p.1 == key then (key, value) else p
  else l ++ [(key, value)]

/-- `calculateActionExperience` (`BaseSkillSystem.ts` lines 440-467): only
`experience`-typed rewards naming this skill contribute, reduced by the
overlevel penalty `min(0.5, levelDiff*0.02)` and critical-multiplied, then
floored. -/
def calculateActionExperience (cfg : SkillConfig) (st : SkillState)
    (action : SkillAction) (isCriticalHit : Bool) : List (String × ℚ) :=
  let experienceRewards := action.rewards.filter fun reward =>
    decide (reward.type = RewardType.experience)
  experienceRewards.foldl
    (fun acc reward =>
      if reward.value = cfg.id then
        let amount := if reward.amount = 0 then 0 else reward.amount
        let requiredLevel := getRequiredLevelForAction cfg action
        let levelDiff := (st.level : ℚ) - requiredLevel
        let amount :=
          if 0 < levelDiff then amount * (1 - min (0.5 : ℚ) (levelDiff * 0.02))
          else amount
        let amount := if isCriticalHit then amount * getCriticalMultiplier else amount
        recordSet acc cfg.id (jsFloor amount)
      else acc)
    []

/-- The failure `ActionResult` literal used by every early return of
`performAction`. -/
def failResult (reason : String) : ActionResult :=
  { success := false
    rewards := []
    experience := []
    failureReason := some reason
    critBonus := none }

/-- `executeAction` (`BaseSkillSystem.ts` lines 314-345).  `rolls 0` is the
success draw and `rolls 1` the critical draw; reward drop draws follow from
index 2.  `applyActionEffects` is a subclass hook that touches only
skill-specific and collaborator state, never the `SkillState`, so it does
not appear in the state transition. -/
def executeAction {Ctx : Type} (hooks : SkillHooks Ctx) (cfg : SkillConfig)
    (st : SkillState) (action : SkillAction) (context : Option Ctx)
    (rolls : ℕ → ℚ) : ActionResult :=
  let successChance := calculateSuccessChance hooks cfg st action context
  let isSuccess := decide (rolls 0 < successChance)
  if isSuccess then
    let criticalChance := calculateCriticalChance hooks st action context
    let isCriticalHit := decide (rolls 1 < criticalChance)
    let rewards := (calculateRewards hooks st action context isCriticalHit rolls 2).1
    let experience := calculateActionExperience cfg st action isCriticalHit
    { success := true
      rewards := rewards
      experience := experience
      failureReason := none
      critBonus := if isCriticalHit then some getCriticalMultiplier else none }
  else failResult "Action failed"

/-- The four precondition failures of `performAction`, in source order. -/
inductive PerformFailure where
  | notFound
  | notUnlocked
  | requirementsNotMet
  | alreadyPerforming
deriving DecidableEq, Repr

/-- The `failureReason` string each precondition failure produces. -/
def reasonText : PerformFailure → String
  | .notFound => "Action not found"
  | .notUnlocked => "Action not unlocked"
  | .requirementsNotMet => "Requirements not met"
  | .alreadyPerforming => "Already performing an action"

/-- The first violated precondition of `performAction`
(`BaseSkillSystem.ts` lines 213-252), mirroring the guard sequence of the
source: catalog lookup, unlocked set, `meetsRequirements`, busy check. -/
def firstFailure {Ctx : Type} (hooks : SkillHooks Ctx) (cfg : SkillConfig)
    (st : SkillState) (actionId : String) : Option PerformFailure :=
  match getAction cfg actionId with
  | none => some .notFound
  | some action =>
    if !(st.unlockedActions.contains actionId) then some .notUnlocked
    else if !(meetsRequirements hooks cfg (some st) action.requirements) then
      some .requirementsNotMet
    else if st.activeAction.isSome then some .alreadyPerforming
    else none

/-- `performAction` (`BaseSkillSystem.ts` lines 213-287).  `now` models
`Date.now()` and `rolls` the injected random draws.  The returned triple is
(result, new state, emitted events); every failure path returns before any
mutation, exactly as the early returns of the source. -/
def performAction {Ctx : Type} (hooks : SkillHooks Ctx) (cfg : SkillConfig)
    (st : SkillState) (actionId : String) (context : Option Ctx) (now : ℚ)
    (rolls : ℕ → ℚ) : ActionResult × SkillState × List GameEvent :=
  match getAction cfg actionId with
  | none => (failResult "Action not found", st, [])
  | some action =>
    if !(st.unlockedActions.contains actionId) then
      (failResult "Action not unlocked", st, [])
    else if !(meetsRequirements hooks cfg (some st) action.requirements) then
      (failResult "Requirements not met", st, [])
    else if st.activeAction.isSome then
      (failResult "Already performing an action", st, [])
    else
      let duration := calculateActionDuration hooks st action context
      let st1 := { st with
        activeAction := some ⟨actionId, now, now + duration, 1, 0⟩ }
      let result := executeAction hooks cfg st1 action context rolls
      let st2 := { st1 with
        activeAction := none
        progress := { st1.progress with
          actionsCompleted := st1.progress.actionsCompleted + 1
          timeSpent := st1.progress.timeSpent + duration } }
      let events :=
        [GameEvent.actionStarted actionId duration] ++
        (if result.success then [GameEvent.actionCompleted actionId result.rewards]
         else [GameEvent.actionFailed actionId (result.failureReason.getD "")])
      (result, st2, events)

/-- `checkForUnlockedActions` (`BaseSkillSystem.ts` lines 517-530).  It
evaluates `meetsRequirements` against the full current state object, whose
top-level `level` field is the one the requirement checks read. -/
def checkForUnlockedActions {Ctx : Type} (hooks : SkillHooks Ctx)
    (cfg : SkillConfig) (st : SkillState) : SkillState × List GameEvent :=
  let newlyUnlocked := cfg.actions.filter fun action =>
    !(st.unlockedActions.contains action.id) &&
      meetsRequirements hooks cfg (some st) action.requirements
  ({ st with unlockedActions := st.unlockedActions ++ newlyUnlocked.map (fun a => a.id) },
   newlyUnlocked.map fun action => GameEvent.actionUnlocked cfg.id action.id)

/-- One iteration body of the `while` loop of `handleExperienceGained`
(`BaseSkillSystem.ts` lines 491-497): subtract the threshold, increment the
level, recompute the threshold, then check for newly unlocked actions. -/
def levelStep {Ctx : Type} (hooks : SkillHooks Ctx) (cfg : SkillConfig)
    (st : SkillState) : SkillState × List GameEvent :=
  let p := st.progress
  let p1 : SkillProgress :=
    { p with
      experience := p.experience - p.experienceToNext
      level := p.level + 1 }
  let p2 := { p1 with
    experienceToNext := calculateExperienceForLevel hooks cfg (p1.level + 1) }
  checkForUnlockedActions hooks cfg { st with progress := p2 }

/-- The `while` loop of `handleExperienceGained` (`BaseSkillSystem.ts`
lines 489-498), with explicit fuel.  Each iteration requires
`progress.level < maxLevel` and increments `progress.level`, so fuel
`maxLevel - progress.level` makes the recursion agree with the source loop.
Returns (state, levelUps counter, accumulated unlock events). -/
def levelLoop {Ctx : Type} (hooks : SkillHooks Ctx) (cfg : SkillConfig) :
    ℕ → SkillState → ℕ → List GameEvent → SkillState × ℕ × List GameEvent
  | 0, st, levelUps, events => (st, levelUps, events)
  | fuel + 1, st, levelUps, events =>
    if st.progress.experienceToNext ≤ st.progress.experience ∧
        st.progress.level < cfg.maxLevel then
      levelLoop hooks cfg fuel (levelStep hooks cfg st).1 (levelUps + 1)
        (events ++ (levelStep hooks cfg st).2)
    else (st, levelUps, events)

/-- The first statement of `handleExperienceGained`
(`BaseSkillSystem.ts` line 485): add the amount to the cumulative total. -/
def gainedState (st : SkillState) (amount : ℚ) : SkillState :=
  { st with progress := { st.progress with
      totalExperienceGained := st.progress.totalExperienceGained + amount } }

/-- The sync of the top-level `Skill` mirror fields from `progress`
(`BaseSkillSystem.ts` lines 500-503). -/
def syncState (st : SkillState) : SkillState :=
  { st with
    level := st.progress.level
    experience := st.progress.experience
    experienceToNext := st.progress.experienceToNext }

/-- The full level-up loop run of `handleExperienceGained`, starting from
the total-updated state with a zeroed counter and no events. -/
def hxgLoop {Ctx : Type} (hooks : SkillHooks Ctx) (cfg : SkillConfig)
    (st : SkillState) (amount : ℚ) : SkillState × ℕ × List GameEvent :=
  levelLoop hooks cfg (cfg.maxLevel - (gainedState st amount).progress.level)
    (gainedState st amount) 0 []

/-- `handleExperienceGained` (`BaseSkillSystem.ts` lines 484-512): adds the
amount to the cumulative total, runs the level-up loop, syncs the top-level
`Skill` fields from `progress`, then emits one `skill:level_up` event per
`levelUps` iteration -- each with `newLevel` read from the final
`progress.level`. -/
def handleExperienceGained {Ctx : Type} (hooks : SkillHooks Ctx)
    (cfg : SkillConfig) (st : SkillState) (amount : ℚ) :
    SkillState × List GameEvent :=
  (syncState (hxgLoop hooks cfg st amount).1,
   (hxgLoop hooks cfg st amount).2.2 ++
     List.replicate (hxgLoop hooks cfg st amount).2.1
       (GameEvent.levelUp cfg.id (hxgLoop hooks cfg st amount).1.progress.level))

/-- Iterated `handleExperienceGained` over a list of amounts, keeping only
the state (the host drains the events). -/
def runGains {Ctx : Type} (hooks : SkillHooks Ctx) (cfg : SkillConfig)
    (st : SkillState) (amounts : List ℚ) : SkillState :=
  amounts.foldl (fun s a => (handleExperienceGained hooks cfg s a).1) st

/-- Recognizer for `skill:level_up` events. -/
def isLevelUpEvent : GameEvent → Bool
  | .levelUp _ _ => true
  | _ => false

/-- `SkillRegistration` from `SkillRegistry.ts` (the engine reference and
display metadata are not consulted by `unlockSkill` and are omitted). -/
structure SkillRegistration where
  id : String
  isUnlocked : Bool
  unlockRequirements : List ActionRequirement
  position : ℕ
deriving DecidableEq, Repr

/-- The `skills` map of `SkillRegistry`, modelled as a partial lookup. -/
structure RegistryState where
  skills : String → Option SkillRegistration

/-- `meetsUnlockRequirements` (`SkillRegistry.ts` lines 183-187).  The
source is a stub that ignores its argument; its comment says checking would
need game-state access and that for now the requirements are assumed met. -/
def meetsUnlockRequirements (_requirements : List ActionRequirement) : Bool :=
  true

/-- The mutation `registration.isUnlocked = true` on the registration
stored in the `skills` map. -/
def setUnlocked (reg : RegistryState) (skillId : String) : RegistryState :=
  { skills := fun k =>
      if k = skillId then (reg.skills k).map fun r => { r with isUnlocked := true }
      else reg.skills k }

/-- `unlockSkill` (`SkillRegistry.ts` lines 153-178).  Returns
(return value, new registry state, emitted events). -/
def unlockSkill (reg : RegistryState) (skillId : String) :
    Bool × RegistryState × List GameEvent :=
  match reg.skills skillId with
  | none => (false, reg, [])
  | some r =>
    if r.isUnlocked then (true, reg, [])
    else if !(meetsUnlockRequirements r.unlockRequirements) then (false, reg, [])
    else (true, setUnlocked reg skillId, [GameEvent.skillUnlocked skillId])

/-!
Object model for the frame claim about `getState` (`BaseSkillSystem.ts`
lines 136-138, `return { ...this.state }`).  JavaScript objects live on a
heap and fields of object type hold references; the spread operator
allocates a fresh top-level object whose fields are copied by value, so a
field that holds a reference (here `progress`, and likewise
`unlockedActions` and `activeAction`) is shared between the original and
the copy.  `JsHeap` carries the top-level `SkillState` objects and the
nested `SkillProgress` objects in two address spaces, with an allocation
counter for the former.
-/

/-- The data of a top-level `SkillState` object: value fields plus the
reference to its nested `progress` object. -/
structure StateObjData where
  level : ℕ
  experience : ℚ
  experienceToNext : ℚ
  progressRef : ℕ
deriving DecidableEq, Repr

/-- Heap of top-level state objects and nested progress objects. -/
structure JsHeap where
  stateAt : ℕ → StateObjData
  progressAt : ℕ → SkillProgress
  nextState : ℕ

/-- `getState` (`BaseSkillSystem.ts` lines 136-138): `{ ...this.state }`
allocates a fresh top-level object whose fields -- including the
`progressRef` -- are copied from the engine state object.  Returns the
reference to the copy and the extended heap. -/
def getStateObj (h : JsHeap) (engineRef : ℕ) : ℕ × JsHeap :=
  let s := h.stateAt engineRef
  (h.nextState,
   { h with
     stateAt := fun k => if k = h.nextState then s else h.stateAt k
     nextState := h.nextState + 1 })

/-- An external caller assigning to a top-level field of a state object
(for example `copy.level = n`). -/
def writeStateLevel (h : JsHeap) (ref : ℕ) (n : ℕ) : JsHeap :=
  { h with stateAt := fun k =>
      if k = ref then { h.stateAt ref with level := n } else h.stateAt k }

/-- An external caller overwriting the fields of a nested progress object
(for example `copy.progress.level = ...`). -/
def writeProgress (h : JsHeap) (ref : ℕ) (p : SkillProgress) : JsHeap :=
  { h with progressAt := fun k => if k = ref then p else h.progressAt k }

/-- The progress record the engine observes through its own state object:
`this.state.progress` dereferenced. -/
def readProgressOf (h : JsHeap) (stateRef : ℕ) : SkillProgress :=
  h.progressAt ((h.stateAt stateRef).progressRef)

/-!  Spec-modelled data and the spec-side success-chance formula.  -/

/-- Modelled from the spec: the action `chop_oak` of `WOODCUTTING_ACTIONS`,
defined in `src/data/WoodcuttingData.ts`, a file that is absent from the
repository snapshot (only its importers are present).  The spec states:
"action `chop_oak` requires skill level 1, base experience 25, base
duration 2000 ms"; the level-scaling factor is not given by the spec and is
not consulted by the experience computation under verification. -/
def chop_oak : SkillAction :=
  { id := "chop_oak"
    name := "Chop Oak Tree"
    requirements := [{ type := .skill, value := "woodcutting", amount := some 1 }]
    rewards := [{ type := .experience, value := "woodcutting", amount := 25, chance := none }]
    baseTime := 2000
    levelScaling := 0 }

/-- The woodcutting configuration of `WoodcuttingSkillSystem.ts`
(lines 28-42), its action catalog restricted to the spec-modelled
`chop_oak`. -/
def woodcuttingConfig : SkillConfig :=
  { id := "woodcutting"
    name := "Woodcutting"
    maxLevel := 99
    experienceCurve := .exponential
    baseExperience := 100
    experienceMultiplier := 1.1
    actions := [chop_oak] }

/-- The success-chance formula in the words of the spec, for comparison
with the source computation: the clamp to `[0.05, 0.95]` applied to the
base term before the skill-specific modifier multiplies it. -/
def specSuccessChance (cfg : SkillConfig) (st : SkillState) (action : SkillAction)
    (modifier : ℚ) : ℚ :=
  min (0.95 : ℚ)
    (max (0.05 : ℚ)
      ((0.5 : ℚ) +
        min (0.4 : ℚ) (((st.level : ℚ) - getRequiredLevelForAction cfg action) * 0.01))) *
    modifier

/-!  Concrete fixtures for counterexamples and witnesses.  -/

/-- Hooks of a subclass whose modifiers are all neutral, with permissive
economy and inventory collaborators and no completed quests. -/
def trivialHooks : SkillHooks Unit :=
  { getActionDurationModifier := fun _ _ _ => 1
    getSuccessChanceModifier := fun _ _ _ => 1
    getCriticalChanceModifier := fun _ _ _ => 1
    modifyRewardAmount := fun _ _ amount _ _ => amount
    hasItem := fun _ _ => true
    hasGold := fun _ => true
    hasCompletedQuest := fun _ => false
    calculateCustomExperience := fun _ => 0 }

/-- Hooks whose success-chance modifier is 2 (for example a tool with
effectiveness 2), all other hooks neutral. -/
def doubleSuccessHooks : SkillHooks Unit :=
  { trivialHooks with getSuccessChanceModifier := fun _ _ _ => 2 }

/-- A basic action gated only on skill level 1, rewarding 25 experience. -/
def actBasic : SkillAction :=
  { id := "act_basic"
    name := "Basic Action"
    requirements := [{ type := .skill, value := "basic", amount := some 1 }]
    rewards := [{ type := .experience, value := "basic", amount := 25, chance := none }]
    baseTime := 2000
    levelScaling := 0.01 }

/-- A linear-curve configuration holding `actBasic`. -/
def cfgBasic : SkillConfig :=
  { id := "basic"
    name := "Basic"
    maxLevel := 99
    experienceCurve := .linear
    baseExperience := 100
    experienceMultiplier := 1
    actions := [actBasic] }

/-- A `cfgBasic` engine state that is mid-action: `act_basic` is unlocked
and an `ActiveAction` is parked (the state observable between the
synchronous validation of `performAction` and its cooperative
resolution). -/
def busyState : SkillState :=
  { id := "basic"
    name := "Basic"
    level := 1
    experience := 0
    experienceToNext := 200
    progress :=
      { level := 1
        experience := 0
        experienceToNext := 200
        totalExperienceGained := 0
        actionsCompleted := 0
        timeSpent := 0 }
    unlockedActions := ["act_basic"]
    activeAction := some ⟨"act_basic", 0, 2000, 1, 0⟩ }

/-- A constant stream of random draws. -/
def halfRolls : ℕ → ℚ := fun _ => 0.5

/-- A state at level 21 for the overlevel-penalty computation (only the
top-level `level` field is read by `calculateActionExperience`). -/
def stLevel21 : SkillState :=
  { id := "woodcutting"
    name := "Woodcutting"
    level := 21
    experience := 0
    experienceToNext := 100
    progress :=
      { level := 21
        experience := 0
        experienceToNext := 100
        totalExperienceGained := 0
        actionsCompleted := 0
        timeSpent := 0 }
    unlockedActions := ["chop_oak"]
    activeAction := none }

/-- A state at level 1 for the success-chance counterexample. -/
def stLevel1 : SkillState :=
  { id := "basic"
    name := "Basic"
    level := 1
    experience := 0
    experienceToNext := 200
    progress :=
      { level := 1
        experience := 0
        experienceToNext := 200
        totalExperienceGained := 0
        actionsCompleted := 0
        timeSpent := 0 }
    unlockedActions := ["act_basic"]
    activeAction := none }

/-- A zero-base-experience linear configuration: every per-level threshold
is 0, so a single experience notification climbs to the level cap. -/
def cfgZero : SkillConfig :=
  { id := "s"
    name := "Zero"
    maxLevel := 3
    experienceCurve := .linear
    baseExperience := 0
    experienceMultiplier := 1
    actions := [] }

/-- An exponential configuration with positive base experience but
multiplier 1/2, making `experienceForLevel 2 = 0`. -/
def cfgHalf : SkillConfig :=
  { id := "h"
    name := "Half"
    maxLevel := 2
    experienceCurve := .exponential
    baseExperience := 1
    experienceMultiplier := 0.5
    actions := [] }

/-- An exponential configuration with decaying thresholds (multiplier
1/2). -/
def cfgDecay : SkillConfig :=
  { id := "d"
    name := "Decay"
    maxLevel := 10
    experienceCurve := .exponential
    baseExperience := 100
    experienceMultiplier := 0.5
    actions := [] }

/-- An exponential configuration with growing thresholds (multiplier 2). -/
def cfgGrow : SkillConfig :=
  { id := "g"
    name := "Grow"
    maxLevel := 10
    experienceCurve := .exponential
    baseExperience := 100
    experienceMultiplier := 2
    actions := [] }

/-- An action of skill `w` gated only on skill level 1. -/
def actW : SkillAction :=
  { id := "act_w"
    name := "W Action"
    requirements := [{ type := .skill, value := "w", amount := some 1 }]
    rewards := [{ type := .experience, value := "w", amount := 10, chance := none }]
    baseTime := 1000
    levelScaling := 0 }

/-- A configuration whose single action is satisfied at the starting
level. -/
def cfgW : SkillConfig :=
  { id := "w"
    name := "W"
    maxLevel := 99
    experienceCurve := .linear
    baseExperience := 10
    experienceMultiplier := 1
    actions := [actW] }

/-- A linear configuration with positive base experience, for the
no-level-up witness. -/
def cfgLinearFive : SkillConfig :=
  { id := "lin"
    name := "Linear"
    maxLevel := 99
    experienceCurve := .linear
    baseExperience := 5
    experienceMultiplier := 1
    actions := [] }

/-- A locked registration with a nonempty unlock requirement list. -/
def miningRegistration : SkillRegistration :=
  { id := "mining"
    isUnlocked := false
    unlockRequirements := [{ type := .level, value := "", amount := some 5 }]
    position := 1 }

/-- A registry holding only the locked mining registration. -/
def regOne : RegistryState :=
  { skills := fun k => if k = "mining" then some miningRegistration else none }

/-- A concrete progress record for the aliasing counterexample. -/
def progA : SkillProgress :=
  { level := 1
    experience := 0
    experienceToNext := 200
    totalExperienceGained := 0
    actionsCompleted := 0
    timeSpent := 0 }

/-- The progress record an external caller writes through the copy. -/
def progB : SkillProgress :=
  { level := 99
    experience := 7
    experienceToNext := 1
    totalExperienceGained := 123
    actionsCompleted := 4
    timeSpent := 5 }

/-- A heap with one engine state object at address 0 whose progress lives
at progress-address 0. -/
def heap0 : JsHeap :=
  { stateAt := fun _ => { level := 1, experience := 0, experienceToNext := 200, progressRef := 0 }
    progressAt := fun _ => progA
    nextState := 1 }

/-!  Helper lemmas.  -/

/-- `checkForUnlockedActions` never touches the `progress` record. -/
theorem checkForUnlockedActions_progress {Ctx : Type} (hooks : SkillHooks Ctx)
    (cfg : SkillConfig) (st : SkillState) :
    (checkForUnlockedActions hooks cfg st).1.progress = st.progress := rfl

/-- `checkForUnlockedActions` emits only `skill:action_unlocked` events. -/
theorem checkForUnlockedActions_no_levelUp {Ctx : Type} (hooks : SkillHooks Ctx)
    (cfg : SkillConfig) (st : SkillState) :
    (checkForUnlockedActions hooks cfg st).2.filter isLevelUpEvent = [] := by
  unfold checkForUnlockedActions
  rw [List.filter_eq_nil_iff]
  intro e he
  simp only [List.mem_map] at he
  obtain ⟨a, _, rfl⟩ := he
  simp [isLevelUpEvent]

/-- One level-up step raises `progress.level` by exactly one. -/
theorem levelStep_level {Ctx : Type} (hooks : SkillHooks Ctx) (cfg : SkillConfig)
    (st : SkillState) :
    (levelStep hooks cfg st).1.progress.level = st.progress.level + 1 := rfl

/-- The events of one level-up step contain no `skill:level_up`. -/
theorem levelStep_no_levelUp {Ctx : Type} (hooks : SkillHooks Ctx) (cfg : SkillConfig)
    (st : SkillState) :
    (levelStep hooks cfg st).2.filter isLevelUpEvent = [] :=
  checkForUnlockedActions_no_levelUp hooks cfg _

/-- Loop invariant of the level-up loop: the `levelUps` counter advances in
lockstep with `progress.level`, the level never decreases, and no
`skill:level_up` event is appended inside the loop. -/
theorem levelLoop_spec {Ctx : Type} (hooks : SkillHooks Ctx) (cfg : SkillConfig) :
    ∀ (fuel : ℕ) (st : SkillState) (levelUps : ℕ) (events : List GameEvent),
      (levelLoop hooks cfg fuel st levelUps events).2.1 + st.progress.level =
          levelUps + (levelLoop hooks cfg fuel st levelUps events).1.progress.level ∧
        st.progress.level ≤ (levelLoop hooks cfg fuel st levelUps events).1.progress.level ∧
        (levelLoop hooks cfg fuel st levelUps events).2.2.filter isLevelUpEvent =
          events.filter isLevelUpEvent := by
  intro fuel
  induction fuel with
  | zero =>
    intro st levelUps events
    simp [levelLoop]
  | succ fuel ih =>
    intro st levelUps events
    rw [levelLoop]
    by_cases hc : st.progress.experienceToNext ≤ st.progress.experience ∧
        st.progress.level < cfg.maxLevel
    · rw [if_pos hc]
      obtain ⟨ih1, ih2, ih3⟩ :=
        ih (levelStep hooks cfg st).1 (levelUps + 1) (events ++ (levelStep hooks cfg st).2)
      rw [levelStep_level] at ih1 ih2
      refine ⟨by omega, by omega, ?_⟩
      rw [ih3, List.filter_append, levelStep_no_levelUp, List.append_nil]
    · rw [if_neg hc]
      exact ⟨rfl, le_refl _, rfl⟩

/-- When the loop guard fails at entry, the loop returns its arguments for
every fuel value. -/
theorem levelLoop_stuck {Ctx : Type} (hooks : SkillHooks Ctx) (cfg : SkillConfig)
    (fuel : ℕ) (st : SkillState) (levelUps : ℕ) (events : List GameEvent)
    (h : ¬ (st.progress.experienceToNext ≤ st.progress.experience ∧
        st.progress.level < cfg.maxLevel)) :
    levelLoop hooks cfg fuel st levelUps events = (st, levelUps, events) := by
  cases fuel with
  | zero => rfl
  | succ fuel => rw [levelLoop, if_neg h]

/-- Syncing the mirror fields leaves `progress` untouched. -/
theorem syncState_progress (st : SkillState) : (syncState st).progress = st.progress :=
  rfl

/-- The loop run of `handleExperienceGained`: the counter equals the number
of levels gained, the level never decreases, and the accumulated events
hold no `skill:level_up`. -/
theorem hxgLoop_spec {Ctx : Type} (hooks : SkillHooks Ctx) (cfg : SkillConfig)
    (st : SkillState) (amount : ℚ) :
    (hxgLoop hooks cfg st amount).2.1 + st.progress.level =
        (hxgLoop hooks cfg st amount).1.progress.level ∧
      st.progress.level ≤ (hxgLoop hooks cfg st amount).1.progress.level ∧
      (hxgLoop hooks cfg st amount).2.2.filter isLevelUpEvent = [] := by
  obtain ⟨h1, h2, h3⟩ := levelLoop_spec hooks cfg
    (cfg.maxLevel - (gainedState st amount).progress.level) (gainedState st amount) 0 []
  exact ⟨by simpa [hxgLoop, gainedState] using h1,
    by simpa [hxgLoop, gainedState] using h2,
    by simpa [hxgLoop, gainedState] using h3⟩

/-- Filtering a replicated list by a predicate its element satisfies is the
identity. -/
theorem filter_replicate_self {α : Type} (p : α → Bool) (n : ℕ) (a : α)
    (hp : p a = true) : (List.replicate n a).filter p = List.replicate n a := by
  rw [List.filter_eq_self]
  intro b hb
  rw [List.eq_of_mem_replicate hb]
  exact hp

/-- A call to `handleExperienceGained` that triggers no level-up only adds
the amount to the cumulative total (and re-syncs the mirror fields). -/
theorem handleExperienceGained_noLevelUp {Ctx : Type} (hooks : SkillHooks Ctx)
    (cfg : SkillConfig) (st : SkillState) (amount : ℚ)
    (h : st.progress.experience < st.progress.experienceToNext) :
    handleExperienceGained hooks cfg st amount =
      ({ st with
          level := st.progress.level
          experience := st.progress.experience
          experienceToNext := st.progress.experienceToNext
          progress := { st.progress with
            totalExperienceGained := st.progress.totalExperienceGained + amount } }, []) := by
  unfold handleExperienceGained hxgLoop
  rw [levelLoop_stuck]
  · rfl
  · intro hcontra
    exact absurd hcontra.1 (not_le.mpr h)

/-- Iterating `handleExperienceGained` from any state strictly below its
threshold, with the mirror fields in sync, only accumulates the total. -/
theorem runGains_inv {Ctx : Type} (hooks : SkillHooks Ctx) (cfg : SkillConfig) :
    ∀ (amounts : List ℚ) (st : SkillState),
      st.progress.experience < st.progress.experienceToNext →
      st.level = st.progress.level →
      st.experience = st.progress.experience →
      st.experienceToNext = st.progress.experienceToNext →
      runGains hooks cfg st amounts =
        { st with progress := { st.progress with
            totalExperienceGained := st.progress.totalExperienceGained + amounts.sum } } := by
  intro amounts
  induction amounts with
  | nil =>
    intro st _ _ _ _
    simp [runGains]
  | cons a rest ih =>
    intro st hlt hl he ht
    have hstep := handleExperienceGained_noLevelUp hooks cfg st a hlt
    unfold runGains
    rw [List.foldl_cons, hstep]
    have := ih { st with
        level := st.progress.level
        experience := st.progress.experience
        experienceToNext := st.progress.experienceToNext
        progress := { st.progress with
          totalExperienceGained := st.progress.totalExperienceGained + a } }
      hlt rfl rfl rfl
    rw [runGains] at this
    rw [this]
    simp [List.sum_cons, add_assoc, hl, he, ht]

/-!  Claim theorems.  -/

/-- Claim C1, counterexample: on an engine that is mid-action (an
`ActiveAction` is set), a `performAction` call for an action id that is not
in the catalog is rejected with `"Action not found"`, not with
`"Already performing an action"`, because the busy check is the last of the
four precondition checks.  This refutes the claim that while an
`ActiveAction` is set any further `performAction` call fails with
`"Already performing an action"`. -/
theorem c1_counterexample :
    busyState.activeAction.isSome = true ∧
      (performAction trivialHooks cfgBasic busyState "no_such_action" none 0
            halfRolls).1.failureReason = some "Action not found" ∧
      "Action not found" ≠ "Already performing an action" :=
  ⟨rfl, rfl, by decide⟩

/-- Claim C1, amended: while an `ActiveAction` is set, any `performAction`
call that passes the three earlier precondition checks (the action exists
in the catalog, its id is in the unlocked set, and its requirements are
met) returns the failure result `"Already performing an action"`, leaves
the state unchanged, and emits no event (nothing is queued). -/
theorem c1_busy_rejected {Ctx : Type} (hooks : SkillHooks Ctx) (cfg : SkillConfig)
    (st : SkillState) (actionId : String) (context : Option Ctx) (now : ℚ)
    (rolls : ℕ → ℚ) (action : SkillAction)
    (hfind : getAction cfg actionId = some action)
    (hunl : st.unlockedActions.contains actionId = true)
    (hreq : meetsRequirements hooks cfg (some st) action.requirements = true)
    (hbusy : st.activeAction.isSome = true) :
    performAction hooks cfg st actionId context now rolls =
      (failResult "Already performing an action", st, []) := by
  unfold performAction
  simp only [hfind, hunl, hreq, hbusy, Bool.not_true, Bool.false_eq_true, if_false,
    if_true]

/-- Claim C1, witness: the amended busy rejection evaluated on the concrete
mid-action state. -/
theorem c1_witness :
    performAction trivialHooks cfgBasic busyState "act_basic" none 0 halfRolls =
      (failResult "Already performing an action", busyState, []) :=
  c1_busy_rejected trivialHooks cfgBasic busyState "act_basic" none 0 halfRolls
    actBasic rfl rfl rfl rfl

/-- Claim C2 (confirmed): `performAction` checks its preconditions in the
fixed order catalog lookup, unlocked set, `meetsRequirements`, busy check;
on the first violated precondition it returns the structured failure
result carrying the corresponding reason, with the state unchanged and no
event emitted (and the four reasons are pairwise distinct). -/
theorem c2_precondition_order :
    (∀ {Ctx : Type} (hooks : SkillHooks Ctx) (cfg : SkillConfig) (st : SkillState)
        (actionId : String) (context : Option Ctx) (now : ℚ) (rolls : ℕ → ℚ)
        (f : PerformFailure),
        firstFailure hooks cfg st actionId = some f →
        performAction hooks cfg st actionId context now rolls =
          (failResult (reasonText f), st, [])) ∧
      (List.map reasonText
        [PerformFailure.notFound, PerformFailure.notUnlocked,
          PerformFailure.requirementsNotMet, PerformFailure.alreadyPerforming]).Nodup := by
  constructor
  · intro Ctx hooks cfg st actionId context now rolls f h
    unfold firstFailure at h
    unfold performAction
    cases hact : getAction cfg actionId with
    | none =>
      simp only [hact] at h ⊢
      cases h
      rfl
    | some action =>
      simp only [hact] at h ⊢
      cases hu : st.unlockedActions.contains actionId with
      | false =>
        simp only [hu, Bool.not_false, if_true] at h ⊢
        cases h
        rfl
      | true =>
        simp only [hu, Bool.not_true, Bool.false_eq_true, if_false] at h ⊢
        cases hm : meetsRequirements hooks cfg (some st) action.requirements with
        | false =>
          simp only [hm, Bool.not_false, if_true] at h ⊢
          cases h
          rfl
        | true =>
          simp only [hm, Bool.not_true, Bool.false_eq_true, if_false] at h ⊢
          cases hb : st.activeAction.isSome with
          | false =>
            simp only [hb, Bool.false_eq_true, if_false] at h
            cases h
          | true =>
            simp only [hb, if_true] at h ⊢
            cases h
            rfl
  · decide

/-- Claim C2, witness: the precondition characterization evaluated where
the first violated precondition is the catalog lookup, together with the
distinctness of the four reasons. -/
theorem c2_witness :
    performAction trivialHooks cfgBasic busyState "no_such_action" none 0 halfRolls =
        (failResult (reasonText PerformFailure.notFound), busyState, []) ∧
      (List.map reasonText
        [PerformFailure.notFound, PerformFailure.notUnlocked,
          PerformFailure.requirementsNotMet, PerformFailure.alreadyPerforming]).Nodup :=
  ⟨c2_precondition_order.1 trivialHooks cfgBasic busyState "no_such_action" none 0
      halfRolls PerformFailure.notFound rfl,
    c2_precondition_order.2⟩

/-- Claim C3, counterexample: with the zero-threshold linear configuration
a single `handleExperienceGained` call gains two levels (1 to 3) and emits
two `skill:level_up` events, but both carry `newLevel = 3` (the final
level) instead of the successive levels 2 and 3. -/
theorem c3_counterexample :
    (handleExperienceGained trivialHooks cfgZero
          (createInitialState trivialHooks cfgZero) 5).1.progress.level = 3 ∧
      (createInitialState trivialHooks cfgZero).progress.level = 1 ∧
      (handleExperienceGained trivialHooks cfgZero
          (createInitialState trivialHooks cfgZero) 5).2 =
        [GameEvent.levelUp "s" 3, GameEvent.levelUp "s" 3] ∧
      (handleExperienceGained trivialHooks cfgZero
          (createInitialState trivialHooks cfgZero) 5).2 ≠
        [GameEvent.levelUp "s" 2, GameEvent.levelUp "s" 3] := by
  have hrun : handleExperienceGained trivialHooks cfgZero
      (createInitialState trivialHooks cfgZero) 5 =
      ((handleExperienceGained trivialHooks cfgZero
        (createInitialState trivialHooks cfgZero) 5).1,
       [GameEvent.levelUp "s" 3, GameEvent.levelUp "s" 3]) := by
    norm_num [handleExperienceGained, hxgLoop, gainedState, createInitialState,
      syncState, calculateExperienceForLevel, cfgZero, getInitialUnlockedActions,
      levelLoop, levelStep, checkForUnlockedActions, List.replicate]
  constructor
  · norm_num [handleExperienceGained, hxgLoop, gainedState, createInitialState,
      syncState, calculateExperienceForLevel, cfgZero, getInitialUnlockedActions,
      levelLoop, levelStep, checkForUnlockedActions]
  refine ⟨rfl, ?_, ?_⟩
  · rw [hrun]
  · rw [hrun]
    simp

/-- Claim C3, amended: a `handleExperienceGained` call that raises the
level by `k` levels emits exactly `k` `skill:level_up` events, but every
one of them carries the final level reached after all gains as its
`newLevel` payload (`k` copies of the final level), not the successive
intermediate levels. -/
theorem c3_level_up_events_carry_final_level {Ctx : Type} (hooks : SkillHooks Ctx)
    (cfg : SkillConfig) (st : SkillState) (amount : ℚ) :
    ((handleExperienceGained hooks cfg st amount).2).filter isLevelUpEvent =
      List.replicate
        ((handleExperienceGained hooks cfg st amount).1.progress.level -
          st.progress.level)
        (GameEvent.levelUp cfg.id
          (handleExperienceGained hooks cfg st amount).1.progress.level) := by
  obtain ⟨h1, -, h3⟩ := hxgLoop_spec hooks cfg st amount
  unfold handleExperienceGained
  rw [List.filter_append, h3, List.nil_append, syncState_progress,
    filter_replicate_self _ _ _ rfl]
  have hcount : (hxgLoop hooks cfg st amount).2.1 =
      (hxgLoop hooks cfg st amount).1.progress.level - st.progress.level := by
    omega
  rw [hcount]

/-- Claim C4 (code bug), evaluation at the failing input: for a
configuration whose single action requires only skill level 1 -- satisfied
by the freshly constructed state -- the constructed unlocked-action set is
empty, because `getInitialUnlockedActions` runs while `this.state` is still
`undefined` and the guard inside `meetsRequirements` rejects every
action. -/
theorem c4_construction_unlocks_nothing :
    (createInitialState trivialHooks cfgW).unlockedActions = [] ∧
      meetsRequirements trivialHooks cfgW (some (createInitialState trivialHooks cfgW))
        actW.requirements = true :=
  ⟨rfl, by decide⟩

/-- Claim C5, counterexample: at level 1 for a level-1 action with a
success-chance modifier of 2, the source computes
`min(0.95, max(0.05, 0.5 * 2)) = 0.95`, while the formula of the claim
(clamp before the modifier) yields `min(0.95, max(0.05, 0.5)) * 2 = 1`. -/
theorem c5_counterexample :
    calculateSuccessChance doubleSuccessHooks cfgBasic stLevel1 actBasic none = 0.95 ∧
      specSuccessChance cfgBasic stLevel1 actBasic
          (doubleSuccessHooks.getSuccessChanceModifier stLevel1 actBasic none) = 1 ∧
      (0.95 : ℚ) ≠ 1 := by
  refine ⟨?_, ?_, by norm_num⟩ <;>
    norm_num [calculateSuccessChance, specSuccessChance, doubleSuccessHooks,
      trivialHooks, getRequiredLevelForAction, orOne, cfgBasic, stLevel1, actBasic,
      List.find?]

/-- Claim C5, amended: the success chance equals
`clamp((0.5 + min(0.4, (level - requiredLevel)*0.01)) * successModifier,
0.05, 0.95)` -- the clamp to `[0.05, 0.95]` is applied after the
skill-specific modifier multiplies the base term. -/
theorem c5_clamp_after_modifier {Ctx : Type} (hooks : SkillHooks Ctx)
    (cfg : SkillConfig) (st : SkillState) (action : SkillAction)
    (context : Option Ctx) :
    calculateSuccessChance hooks cfg st action context =
      min (0.95 : ℚ) (max (0.05 : ℚ)
        (((0.5 : ℚ) +
            min (0.4 : ℚ)
              (((st.level : ℚ) - getRequiredLevelForAction cfg action) * 0.01)) *
          hooks.getSuccessChanceModifier st action context)) := rfl

/-- Claim C6 (confirmed, chop_oak modelled from the spec): the experience
credited for a successful non-critical `chop_oak` at skill level 21 is
`floor(25 * (1 - min(0.5, 20*0.02))) = 15`. -/
theorem c6_overlevel_experience :
    calculateActionExperience woodcuttingConfig stLevel21 chop_oak false =
      [("woodcutting", 15)] := by
  norm_num [calculateActionExperience, woodcuttingConfig, chop_oak, stLevel21,
    getRequiredLevelForAction, orOne, recordSet, jsFloor, getCriticalMultiplier,
    List.find?]

/-- Claim C7, counterexample: under the exponential curve with multiplier
1/2 (and positive base experience), the per-level threshold strictly
decreases from level 1 to level 2, refuting monotonicity for arbitrary
configurations. -/
theorem c7_counterexample :
    1 < cfgDecay.maxLevel ∧
      ¬ calculateExperienceForLevel trivialHooks cfgDecay 1 ≤
          calculateExperienceForLevel trivialHooks cfgDecay 2 := by
  refine ⟨by decide, ?_⟩
  norm_num [calculateExperienceForLevel, cfgDecay, jsFloor]

/-- Claim C7, amended: for every configuration whose base experience is a
non-negative integer and, for the exponential curve, whose multiplier is at
least 1, the per-level threshold is non-decreasing on `[1, maxLevel)` under
both the linear and the exponential curve. -/
theorem c7_thresholds_monotone {Ctx : Type} (hooks : SkillHooks Ctx)
    (cfg : SkillConfig) (L : ℕ)
    (hbase : ∃ n : ℕ, cfg.baseExperience = (n : ℚ))
    (hmult : 1 ≤ cfg.experienceMultiplier)
    (hcurve : cfg.experienceCurve = ExperienceCurve.linear ∨
      cfg.experienceCurve = ExperienceCurve.exponential)
    (h1 : 1 ≤ L) (_h2 : L < cfg.maxLevel) :
    calculateExperienceForLevel hooks cfg L ≤
      calculateExperienceForLevel hooks cfg (L + 1) := by
  obtain ⟨n, hn⟩ := hbase
  have hn0 : (0 : ℚ) ≤ cfg.baseExperience := by rw [hn]; positivity
  have hL1 : ¬ (L + 1 ≤ 1) := by omega
  unfold calculateExperienceForLevel
  rw [if_neg hL1]
  by_cases hL : L ≤ 1
  · rw [if_pos hL]
    rcases hcurve with hc | hc <;> rw [hc] <;> dsimp only
    · exact le_mul_of_one_le_right hn0
        (by exact_mod_cast Nat.one_le_iff_ne_zero.mpr (by omega))
    · unfold jsFloor
      have hpow : (1 : ℚ) ≤ cfg.experienceMultiplier ^ (L + 1 - 1) :=
        one_le_pow₀ hmult
      have hmulle : cfg.baseExperience * 1 ≤
          cfg.baseExperience * cfg.experienceMultiplier ^ (L + 1 - 1) :=
        mul_le_mul_of_nonneg_left hpow hn0
      have hle : ((n : ℤ) : ℚ) ≤
          cfg.baseExperience * cfg.experienceMultiplier ^ (L + 1 - 1) := by
        rw [mul_one] at hmulle
        calc ((n : ℤ) : ℚ) = cfg.baseExperience := by rw [hn]; push_cast; rfl
          _ ≤ _ := hmulle
      have hfl := Int.le_floor.mpr hle
      rw [hn] at hfl ⊢
      exact_mod_cast hfl
  · rw [if_neg hL]
    rcases hcurve with hc | hc <;> rw [hc] <;> dsimp only
    · have hcast : ((L : ℚ)) ≤ ((L + 1 : ℕ) : ℚ) := by exact_mod_cast Nat.le_succ L
      exact mul_le_mul_of_nonneg_left hcast hn0
    · unfold jsFloor
      have hexp : cfg.experienceMultiplier ^ (L - 1) ≤
          cfg.experienceMultiplier ^ (L + 1 - 1) :=
        pow_le_pow_right₀ hmult (by omega)
      have hle : cfg.baseExperience * cfg.experienceMultiplier ^ (L - 1) ≤
          cfg.baseExperience * cfg.experienceMultiplier ^ (L + 1 - 1) :=
        mul_le_mul_of_nonneg_left hexp hn0
      exact_mod_cast Int.floor_le_floor hle

/-- Claim C7, witness: the monotonicity theorem evaluated on the growing
exponential configuration at level 3. -/
theorem c7_witness :
    calculateExperienceForLevel trivialHooks cfgGrow 3 ≤
      calculateExperienceForLevel trivialHooks cfgGrow 4 :=
  c7_thresholds_monotone trivialHooks cfgGrow 3 ⟨100, rfl⟩ (by norm_num [cfgGrow])
    (Or.inr rfl) (by norm_num) (by norm_num [cfgGrow])

/-- Claim C8 (confirmed): for every registered skill, `unlockSkill` returns
true, leaves the registration unlocked, emits `skill:unlocked` exactly on
the locked-to-unlocked transition, and a repeated call returns true without
changing state or emitting again; the requirements-unmet failure branch is
unreachable because `meetsUnlockRequirements` holds of every requirement
list (in the source it is the constant-true stub). -/
theorem c8_unlock_idempotent (reg : RegistryState) (skillId : String)
    (r : SkillRegistration) (hreg : reg.skills skillId = some r) :
    meetsUnlockRequirements r.unlockRequirements = true ∧
      (unlockSkill reg skillId).1 = true ∧
      ((unlockSkill reg skillId).2.1).skills skillId =
        some { r with isUnlocked := true } ∧
      (unlockSkill reg skillId).2.2 =
        (if r.isUnlocked then [] else [GameEvent.skillUnlocked skillId]) ∧
      unlockSkill (unlockSkill reg skillId).2.1 skillId =
        (true, (unlockSkill reg skillId).2.1, []) := by
  obtain ⟨rid, runl, rreq, rpos⟩ := r
  refine ⟨rfl, ?_, ?_, ?_, ?_⟩ <;>
    · unfold unlockSkill
      cases hu : runl <;>
        simp_all [meetsUnlockRequirements, setUnlocked]

/-- Claim C8, witness: the unlock contract evaluated on the registry
holding the locked mining registration. -/
theorem c8_witness :
    (unlockSkill regOne "mining").1 = true :=
  (c8_unlock_idempotent regOne "mining" miningRegistration (by decide)).2.1

/-- Claim C9, counterexample: after `getState` (the spread copy), an
external write through the nested progress reference of the copy changes the
progress record the engine observes through its own state object -- the
returned object is not a defensive copy of the nested state.  Here the
engine state object lives at address 0 on `heap0`, and writing `progB`
through the copy turns the progress the engine observes from `progA` into
`progB`. -/
theorem c9_counterexample :
    readProgressOf heap0 0 = progA ∧
      progB ≠ progA ∧
      readProgressOf
          (writeProgress (getStateObj heap0 0).2
            (((getStateObj heap0 0).2.stateAt (getStateObj heap0 0).1).progressRef)
            progB)
          0 = progB := by
  refine ⟨rfl, by decide, ?_⟩
  rfl

/-- Claim C9, amended: `getState` returns a shallow copy -- a fresh
top-level object (assignments to its top-level fields do not touch the
state object of the engine) whose nested `progress` field holds the same
reference as the state of the engine, so external mutation through that
nested progress object does change the state the engine observes.
(`getStatistics` builds its result from primitive values only, so it
remains fully defensive.) -/
theorem c9_shallow_copy (h : JsHeap) (engineRef : ℕ)
    (hfresh : engineRef < h.nextState) (n : ℕ) (p : SkillProgress) :
    (getStateObj h engineRef).1 ≠ engineRef ∧
      ((getStateObj h engineRef).2.stateAt (getStateObj h engineRef).1) =
        h.stateAt engineRef ∧
      (writeStateLevel (getStateObj h engineRef).2 (getStateObj h engineRef).1
          n).stateAt engineRef =
        (getStateObj h engineRef).2.stateAt engineRef ∧
      readProgressOf
          (writeProgress (getStateObj h engineRef).2
            (((getStateObj h engineRef).2.stateAt
                (getStateObj h engineRef).1).progressRef)
            p)
          engineRef = p := by
  have hne : engineRef ≠ h.nextState := by omega
  refine ⟨by simpa [getStateObj] using hne.symm, ?_, ?_, ?_⟩
  · simp [getStateObj]
  · simp [getStateObj, writeStateLevel, hne]
  · simp [getStateObj, writeProgress, readProgressOf, hne]

/-- Claim C9, witness: the shallow-copy characterization evaluated on the
one-engine heap. -/
theorem c9_witness :
    0 < heap0.nextState ∧
      readProgressOf
          (writeProgress (getStateObj heap0 0).2
            (((getStateObj heap0 0).2.stateAt (getStateObj heap0 0).1).progressRef)
            progB)
          0 = progB :=
  ⟨by decide, (c9_shallow_copy heap0 0 (by decide) 5 progB).2.2.2⟩

/-- Claim C10, counterexample: with the exponential curve, multiplier 1/2
and base experience 1 (positive), the freshly constructed state has
`experienceToNext = floor(1 * 0.5) = 0`, so a single
`handleExperienceGained` call raises the level from 1 -- refuting both the
parenthetical `experienceForLevel(2) > 0 whenever baseExperience > 0` and
the consequent that no call sequence ever changes the level. -/
theorem c10_counterexample :
    0 < cfgHalf.baseExperience ∧
      calculateExperienceForLevel trivialHooks cfgHalf 2 = 0 ∧
      (handleExperienceGained trivialHooks cfgHalf
          (createInitialState trivialHooks cfgHalf) 7).1.progress.level = 2 := by
  refine ⟨by norm_num [cfgHalf], ?_, ?_⟩
  · norm_num [calculateExperienceForLevel, cfgHalf, jsFloor]
  · norm_num [handleExperienceGained, hxgLoop, gainedState, createInitialState,
      syncState, calculateExperienceForLevel, cfgHalf, getInitialUnlockedActions,
      levelLoop, levelStep, checkForUnlockedActions, jsFloor]

/-- Claim C10, amended: `handleExperienceGained` adds the amount only to
the cumulative `totalExperienceGained` counter and never credits the
`experience` field; from the freshly constructed initial state (experience
0, `experienceToNext = experienceForLevel(2)`), whenever
`experienceForLevel(2) > 0` -- which holds for the linear curve with
positive base experience, though not for every exponential configuration --
no finite sequence of `handleExperienceGained` calls changes the level from
1 or the experience from 0. -/
theorem c10_gains_never_level {Ctx : Type} (hooks : SkillHooks Ctx)
    (cfg : SkillConfig) (amounts : List ℚ)
    (hpos : 0 < calculateExperienceForLevel hooks cfg 2) :
    (runGains hooks cfg (createInitialState hooks cfg) amounts).progress.level = 1 ∧
      (runGains hooks cfg (createInitialState hooks cfg) amounts).progress.experience
        = 0 ∧
      (runGains hooks cfg (createInitialState hooks cfg) amounts).level = 1 ∧
      (runGains hooks cfg (createInitialState hooks cfg) amounts).experience = 0 ∧
      (runGains hooks cfg
          (createInitialState hooks cfg) amounts).progress.totalExperienceGained =
        amounts.sum := by
  have hinv := runGains_inv hooks cfg amounts (createInitialState hooks cfg)
    (by simpa [createInitialState] using hpos) rfl rfl rfl
  rw [hinv]
  simp [createInitialState]

/-- Claim C10, witness: the no-level-up theorem evaluated on the linear
configuration with base experience 5 and two gains. -/
theorem c10_witness :
    0 < calculateExperienceForLevel trivialHooks cfgLinearFive 2 ∧
      (runGains trivialHooks cfgLinearFive
          (createInitialState trivialHooks cfgLinearFive)
          [3, 4]).progress.level = 1 :=
  ⟨by norm_num [calculateExperienceForLevel, cfgLinearFive],
    (c10_gains_never_level trivialHooks cfgLinearFive [3, 4]
      (by norm_num [calculateExperienceForLevel, cfgLinearFive])).1⟩

end Kelvor
